import Mathlib

/-!
# Verification of the exdpy shard-fetch / merge / replay-decoding engine

Shallow embedding, in Lean 4, of the core of the `exdpy` historical market
data client (files `exdpy/http.py`, `exdpy/raw.py`, `exdpy/replay.py`,
`exdpy/common.py`), together with theorems settling the frozen claims about
the client's natural-language specification.

Modelling conventions:
* Python `int` is `Int` (arbitrary precision in both).
* Python exceptions are modelled by `Except PyErr` results; the distinct
  exception classes that the code can raise and that its `try`/`except`
  blocks distinguish are constructors of `PyErr`.
* Python `dict`s (which preserve insertion order) are association lists,
  with `alookup` / `aset` reproducing lookup and in-place update.
* JSON payloads are embedded in parsed form (`Jv`); `json.loads` on a
  payload is the identity on this representation (JSON text parsing is a
  boundary concern performed by the standard library in the source).
-/

/-- Exception classes that the embedded code can raise.	A bare `except:`
catches all of them; `except StopIteration:` catches none of them
(`StopIteration` is modelled separately where iteration is modelled). -/
inductive PyErr where
  | keyError (k : String)
  | indexError
  | valueError
  | typeError
  | nameError
  | attributeError
  | runtimeError
deriving Repr, DecidableEq

/-- `LineType` from `exdpy/common.py`: enum of line kinds
(`MESSAGE`, `SEND`, `START`, `END`, `ERROR`). -/
inductive LineType where
  | message
  | send
  | start
  | end_
  | error
deriving Repr, DecidableEq

/-- Embedded JSON values, as produced by `json.loads` on the payloads the
client actually handles: objects with string keys, strings, integers and
`null`. -/
inductive Jv where
  | null : Jv
  | str : String → Jv
  | int : Int → Jv
  | obj : List (String × Jv) → Jv

/-- `TextLine` from `exdpy/common.py`: one line of recorded feed traffic.
`channel` and `message` are `Optional` in the source.  The `message`
payload is carried in parsed form (`Jv`); lines whose message is plain
text carry a `Jv.str`. -/
structure TextLine where
  exchange : String
  type : LineType
  timestamp : Int
  channel : Option String
  message : Option Jv

/-- Emitted replay lines (`MappingLine` in the source) have the same field
layout as `TextLine`; the decode replaces the textual message with a
mapping, and non-`MESSAGE` lines are passed through by a `cast` that does
not change the value.  The embedding therefore reuses `TextLine`. -/
abbrev MappingLine := TextLine

/-- Python `dict` lookup (`d[k]` on the reading side / `k in d`). -/
def alookup {α β : Type} [DecidableEq α] (k : α) : List (α × β) → Option β
  | [] => none
  | (k', v) :: rest => if k' = k then some v else alookup k rest

/-- Python `dict` assignment `d[k] = v`: updates an existing key in place
(keeping its position) or appends a new key at the end, exactly as
insertion-ordered Python dicts do. -/
def aset {α β : Type} [DecidableEq α] (k : α) (v : β) : List (α × β) → List (α × β)
  | [] => [(k, v)]
  | (k', v') :: rest => if k' = k then (k, v) :: rest else (k', v') :: aset k v rest

theorem alookup_aset_self {α β : Type} [DecidableEq α] (k : α) (v : β) (l : List (α × β)) :
    alookup k (aset k v l) = some v := by
  induction l with
  | nil => simp [aset, alookup]
  | cons hd tl ih =>
    rcases hd with ⟨k', v'⟩
    by_cases h : k' = k
    · simp [aset, alookup, h]
    · simp [aset, alookup, h, ih]

theorem alookup_aset_ne {α β : Type} [DecidableEq α] {k k' : α} (v : β) (l : List (α × β))
    (h : k' ≠ k) : alookup k' (aset k v l) = alookup k' l := by
  induction l with
  | nil => simp [aset, alookup, Ne.symm h]
  | cons hd tl ih =>
    rcases hd with ⟨k₀, v₀⟩
    by_cases h0 : k₀ = k
    · subst h0
      simp [aset, alookup, Ne.symm h]
    · simp [aset, alookup, h0, ih]

/-! ## `_ShardsLineIterator` (`exdpy/raw.py`, lines 44-60) -/

/-- Iterator state of `_ShardsLineIterator`: the immutable shard list and
the two cursor fields `_shard_pos` and `_position`. -/
structure ShardsLineIterator where
  shards : List (List TextLine)
  shardPos : Nat
  position : Nat

/-- The `while` loop at the head of `_ShardsLineIterator.__next__`:
`while self._shard_pos < len(self._shards) and
len(self._shards[self._shard_pos]) < self._position:` advance to the next
shard and reset `_position` to `0`.  (The guard uses `<`, exactly as the
source does.) -/
def shardsAdvanceFuel : Nat → ShardsLineIterator → ShardsLineIterator
  | 0, it => it
  | fuel + 1, it =>
    if it.shardPos < it.shards.length ∧ (it.shards.getD it.shardPos []).length < it.position then
      shardsAdvanceFuel fuel { it with shardPos := it.shardPos + 1, position := 0 }
    else
      it

/-- The loop guard requires `_shard_pos < len(self._shards)` and each
iteration increments `_shard_pos`, so `len(self._shards) - self._shard_pos`
iterations always suffice: with that bound the fuel-indexed loop is the
exact `while` loop. -/
def shardsAdvance (it : ShardsLineIterator) : ShardsLineIterator :=
  shardsAdvanceFuel (it.shards.length - it.shardPos) it

/-- Result of one `__next__` call: a line plus the successor state, a
`StopIteration`, or an `IndexError` escaping from the body's list
indexing. -/
inductive ShardsNextResult where
  | ok (line : TextLine) (it : ShardsLineIterator)
  | stopIteration
  | indexError

/-- `_ShardsLineIterator.__next__`: run the advance loop; raise
`StopIteration` when `self._shard_pos == len(self._shards)`; otherwise
return `self._shards[self._shard_pos][self._position]` (an out-of-range
index raises `IndexError`) and increment `_position`. -/
def shardsNext (it0 : ShardsLineIterator) : ShardsNextResult :=
  let it := shardsAdvance it0
  if it.shardPos = it.shards.length then
    .stopIteration
  else
    match (it.shards.getD it.shardPos []).get? it.position with
    | none => .indexError
    | some line => .ok line { it with position := it.position + 1 }

/-- How a drain of the iterator ended. -/
inductive DrainEnd where
  | stop
  | idxErr
  | fuelOut
deriving DecidableEq, Repr

/-- Pull repeatedly from a `_ShardsLineIterator`, collecting the yielded
lines, until it signals `StopIteration` or raises `IndexError`. -/
def shardsDrainAux : Nat → ShardsLineIterator → List TextLine → List TextLine × DrainEnd
  | 0, _, acc => (acc.reverse, .fuelOut)
  | fuel + 1, it, acc =>
    match shardsNext it with
    | .stopIteration => (acc.reverse, .stop)
    | .indexError => (acc.reverse, .idxErr)
    | .ok line it' => shardsDrainAux fuel it' (line :: acc)

/-- Drain a fresh `_ShardsLineIterator(shards)`. -/
def shardsDrain (fuel : Nat) (shards : List (List TextLine)) : List TextLine × DrainEnd :=
  shardsDrainAux fuel ⟨shards, 0, 0⟩ []

/-! ## `_RawRequestImpl.download` (`exdpy/raw.py`, lines 134-180)

The download path is modelled from the grouped per-exchange shard lists
(`exc_shards`, the value `_download_all_shards` returns) onward: the HTTP
fetch itself is the boundary collaborator.  `mapped` is an insertion-ordered
dict `exchange -> list of shards`, i.e. an association list. -/

/-- The per-exchange merge bookkeeping: `states[exchange]` holds the
exchange's `_ShardsLineIterator` and its buffered `last_line`. -/
abbrev MergeStates := List (String × (ShardsLineIterator × TextLine))

/-- Outcome of `download`: the merged array, a propagated exception, or
exhausted fuel (the model's bound on loop iterations; never hit by the
concrete runs below). -/
inductive DownloadResult where
  | ok (array : List TextLine)
  | err (e : PyErr)
  | outOfFuel

/-- The state-building loop of `download` (lines 140-152): for each
exchange, construct its iterator and pull one line.  `StopIteration` means
the exchange has no data and is skipped; any other exception (in
particular `IndexError`) is *not* caught there and aborts the download.
The Python loop variable `exchange` stays bound after the loop; the last
value it received is returned as the third component (`none` when `mapped`
is empty and the name stays unbound). -/
def buildStates : List (String × List (List TextLine)) →
    Except PyErr (List String × MergeStates × Option String)
  | [] => .ok ([], [], none)
  | (exchange, shards) :: rest =>
    match shardsNext ⟨shards, 0, 0⟩ with
    | .indexError => .error .indexError
    | .stopIteration =>
      match buildStates rest with
      | .error e => .error e
      | .ok (exchanges, states, lastVar) => .ok (exchanges, states, some (lastVar.getD exchange))
    | .ok nxt it' =>
      match buildStates rest with
      | .error e => .error e
      | .ok (exchanges, states, lastVar) =>
        .ok (exchange :: exchanges, (exchange, (it', nxt)) :: states,
          some (lastVar.getD exchange))

/-- The inner scan of the merge loop (lines 162-167):
`for i in range(len(exchanges) - 2, 0, -1)` - the indices
`len-2, len-3, ..., 1` (index `0` is never visited).  Carries
`(argmin, mi, exchange)` where the third component is the Python variable
`exchange` reassigned on every iteration. -/
def innerScan (exchanges : List String) (states : MergeStates) :
    List Nat → Nat × Int × Option String → Except PyErr (Nat × Int × Option String)
  | [], acc => .ok acc
  | i :: rest, (argmin, mi, _) =>
    let exchange := exchanges.getD i ""
    match alookup exchange states with
    | none => .error (.keyError exchange)
    | some (_, line) =>
      if line.timestamp < mi then
        innerScan exchanges states rest (i, line.timestamp, some exchange)
      else
        innerScan exchanges states rest (argmin, mi, some exchange)

/-- The indices visited by `range(len(exchanges) - 2, 0, -1)`:
`[n-2, n-3, ..., 1]`, empty when `n <= 2`. -/
def mergeScanIndices (n : Nat) : List Nat :=
  ((List.range (n - 2)).map (· + 1)).reverse

/-- The merge loop of `download` (lines 156-179).  Each iteration picks
`argmin` (initialised to the *last* index, then possibly lowered by
`innerScan` - which never visits index `0`), appends that exchange's
buffered `last_line`, and advances its iterator inside
`try: ... except:` - a *bare* except, so both `StopIteration` and
`IndexError` lead to `exchanges.remove(exchange)`, where `exchange` is the
leaked loop variable, not the exchange that was exhausted.
`list.remove` raises `ValueError` when the value is absent. -/
def mergeLoop : Nat → List String → MergeStates → Option String → List TextLine →
    DownloadResult
  | 0, _, _, _, _ => .outOfFuel
  | fuel + 1, exchanges, states, lastVar, acc =>
    if exchanges.isEmpty then
      .ok acc.reverse
    else
      let n := exchanges.length
      let e0 := exchanges.getD (n - 1) ""
      match alookup e0 states with
      | none => .err (.keyError e0)
      | some (_, tmpLine) =>
        match innerScan exchanges states (mergeScanIndices n) (n - 1, tmpLine.timestamp, lastVar) with
        | .error e => .err e
        | .ok (argmin, _, lastVar') =>
          let eA := exchanges.getD argmin ""
          match alookup eA states with
          | none => .err (.keyError eA)
          | some (it, lastLine) =>
            let acc' := lastLine :: acc
            match shardsNext it with
            | .ok nxt it' =>
              mergeLoop fuel exchanges (aset eA (it', nxt) states) lastVar' acc'
            | .stopIteration | .indexError =>
              match lastVar' with
              | none => .err .nameError
              | some lv =>
                if lv ∈ exchanges then
                  mergeLoop fuel (exchanges.erase lv) states lastVar' acc'
                else
                  .err .valueError

/-- `_RawRequestImpl.download`, from the grouped shard map onward. -/
def rawDownload (mapped : List (String × List (List TextLine))) (fuel : Nat) :
    DownloadResult :=
  match buildStates mapped with
  | .error e => .err e
  | .ok (exchanges, states, lastVar) => mergeLoop fuel exchanges states lastVar []

/-! ## `_RawLineProcessor` (`exdpy/replay.py`, lines 42-99) -/

/-- Python `str(x)` for the payload values interpolated by
`'%s_%s' % (channel, msgObj['pair'])`.  Only string payloads occur in
practice; the other cases are total stand-ins (`str` of a dict is not
reproduced verbatim, it is never reached by the claims). -/
def pyStr : Jv → String
  | .null => "None"
  | .str s => s
  | .int n => toString n
  | .obj _ => "\x7bdict\x7d"

/-- Python `m[k]` on a parsed JSON payload: `KeyError` when the key is
missing from an object, `TypeError` when the value is not a dict. -/
def jGet (m : Jv) (k : String) : Except PyErr Jv :=
  match m with
  | .obj fs =>
    match alookup k fs with
    | some v => .ok v
    | none => .error (.keyError k)
  | _ => .error .typeError

/-- Python `m[k] = v` on a parsed JSON object: update in place (dicts keep
the key's position).  Unreachable for non-objects in the embedded code
(guarded by a preceding successful `m[k]`); returns the value unchanged
there. -/
def jSet (m : Jv) (k : String) (v : Jv) : Jv :=
  match m with
  | .obj fs => .obj (aset k v fs)
  | other => other

/-- Decimal-string parsing shared by Python's `int(str)` conversions:
strip surrounding whitespace, then an optional sign, then a non-empty
digit run. -/
def pyParseDecimal (s : String) : Option Int :=
  let isWs : Char → Bool := fun c => c = ' ' ∨ c = '\t' ∨ c = '\n' ∨ c = '\r'
  let cs := (s.data.dropWhile isWs).reverse.dropWhile isWs |>.reverse
  let (sign, digits) :=
    match cs with
    | '-' :: rest => ((-1 : Int), rest)
    | '+' :: rest => ((1 : Int), rest)
    | rest => ((1 : Int), rest)
  if digits = [] ∨ ¬ digits.all Char.isDigit then
    none
  else
    some (sign * (digits.foldl (fun acc c => acc * 10 + (c.toNat - 48)) 0 : Nat))

/-- Python `int(v, base=10)`: parses a decimal string (optional
whitespace and sign) to an integer; `ValueError` on a malformed string,
`TypeError` when `v` is not a string (with an explicit `base`, `int`
refuses non-strings). -/
def pyIntBase10 (v : Jv) : Except PyErr Int :=
  match v with
  | .str s =>
    match pyParseDecimal s with
    | some n => .ok n
    | none => .error .valueError
  | _ => .error .typeError

/-- Replay-decoder state: `_defs` (exchange -> channel -> stored schema,
keyed by the *raw* channel name, which is `Optional` in the source's
`TextLine`) and `_post_filter` (exchange -> requested channel set;
modelled as the channel list, which has the same membership). -/
structure ProcState where
  defs : List (String × List (Option String × Jv))
  postFilter : List (String × List String)

/-- `_RawLineProcessor.__init__(filt)`: empty schema table,
`_post_filter = dict((exchange, set(channels)) for ...)`. -/
def mkProcessor (filt : List (String × List String)) : ProcState :=
  ⟨[], filt⟩

/-- Schema lookup `channel in self._defs[exchange]` /
`self._defs[exchange][channel]`, after the exchange entry is known to
exist; `none` when the exchange or the channel entry is absent. -/
def schemaLookup (defs : List (String × List (Option String × Jv)))
    (exchange : String) (channel : Option String) : Option Jv :=
  alookup channel ((alookup exchange defs).getD [])

/-- The channel-name rewrite of `process_raw_line` (lines 69-75):
`new_channel = channel`; for `'bitmex'`, when the raw channel name has no
underscore, `new_channel = '%s_%s' % (channel, msgObj['pair'])`.  A `None`
channel on bitmex would hit `None.find` (`AttributeError`); reading a
missing `'pair'` raises `KeyError`. -/
def pyNormalizeChannel (exchange : String) (channel : Option String) (msgObj : Jv) :
    Except PyErr (Option String) :=
  if exchange = "bitmex" then
    match channel with
    | none => .error .attributeError
    | some c =>
      if '_' ∈ c.data then
        .ok (some c)
      else
        match jGet msgObj "pair" with
        | .error e => .error e
        | .ok p => .ok (some (c ++ "_" ++ pyStr p))
  else
    .ok channel

/-- The type-coercion loop of `process_raw_line` (lines 82-86): for every
`(name, typ)` in the stored definition, when `typ` equals the string
`'timestamp'` or `'duration'` and `msgObj[name]` is not `None`, replace
`msgObj[name]` by `int(msgObj[name], base=10)`.  Exceptions from the
payload lookup (`KeyError`) or the conversion propagate. -/
def pyCoerceFold (items : List (String × Jv)) (msgObj : Jv) : Except PyErr Jv :=
  match items with
  | [] => .ok msgObj
  | (name, typ) :: rest =>
    let isTsTyp : Bool :=
      match typ with
      | .str s => s = "timestamp" || s = "duration"
      | _ => false
    if isTsTyp then
      match jGet msgObj name with
      | .error e => .error e
      | .ok v =>
        match v with
        | .null => pyCoerceFold rest msgObj
        | _ =>
          match pyIntBase10 v with
          | .error e => .error e
          | .ok n => pyCoerceFold rest (jSet msgObj name (.int n))
    else
      pyCoerceFold rest msgObj

/-- `defn.items()`: iterating a stored schema that is not a dict raises
`AttributeError`. -/
def pyItems (defn : Jv) : Except PyErr (List (String × Jv)) :=
  match defn with
  | .obj fs => .ok fs
  | _ => .error .attributeError

/-- Coerce `msgObj` according to the stored definition `defn`. -/
def pyCoerceFields (defn : Jv) (msgObj : Jv) : Except PyErr Jv :=
  match pyItems defn with
  | .error e => .error e
  | .ok items => pyCoerceFold items msgObj

/-- Membership test `new_channel not in self._post_filter[exchange]`:
a `None` channel is simply not a member of a set of strings. -/
def optMem (c : Option String) (chs : List String) : Bool :=
  match c with
  | none => false
  | some s => chs.contains s

/-- `_RawLineProcessor.process_raw_line` (`exdpy/replay.py`, lines 47-99).
Returns the successor state and the emitted line (`none` when the line is
consumed).  `json.loads` is the identity on the embedded parsed payloads
(see the module docstring), and a `None` message would make it raise
`TypeError`. -/
def processRawLine (s : ProcState) (line : TextLine) :
    Except PyErr (ProcState × Option MappingLine) :=
  let defs0 := if line.type = LineType.start then aset line.exchange [] s.defs else s.defs
  if line.type = LineType.message then
    let exchange := line.exchange
    let channel := line.channel
    let defs1 :=
      match alookup exchange defs0 with
      | none => aset exchange [] defs0
      | some _ => defs0
    let defsE := (alookup exchange defs1).getD []
    match alookup channel defsE with
    | none =>
      match line.message with
      | none => .error .typeError
      | some m =>
        .ok ({ s with defs := aset exchange (aset channel m defsE) defs1 }, none)
    | some defn =>
      match line.message with
      | none => .error .typeError
      | some msgObj =>
        match pyNormalizeChannel exchange channel msgObj with
        | .error e => .error e
        | .ok newChannel =>
          match alookup exchange s.postFilter with
          | none => .error (.keyError exchange)
          | some chs =>
            if optMem newChannel chs then
              match pyCoerceFields defn msgObj with
              | .error e => .error e
              | .ok msgObj2 =>
                .ok ({ s with defs := defs1 },
                  some ⟨exchange, line.type, line.timestamp, newChannel, some msgObj2⟩)
            else
              .ok ({ s with defs := defs1 }, none)
  else
    .ok ({ s with defs := defs0 }, some line)

/-- Feed a list of raw lines through one `_RawLineProcessor`, recording
each call's result (`none` for a consumed line).  The materialising
replay `download` and the drain below both process lines in this order. -/
def processAll (s : ProcState) : List TextLine →
    Except PyErr (ProcState × List (Option MappingLine))
  | [] => .ok (s, [])
  | l :: rest =>
    match processRawLine s l with
    | .error e => .error e
    | .ok (s', r) =>
      match processAll s' rest with
      | .error e => .error e
      | .ok (s'', rs) => .ok (s'', r :: rs)

/-- The per-call results of a `_RawLineProcessor(filt)` run on `lines`
(`none` when the processor returned `None`); `none` overall when a call
raised. -/
def processedOutputs (filt : List (String × List String)) (lines : List TextLine) :
    Option (List (Option MappingLine)) :=
  match processAll (mkProcessor filt) lines with
  | .error _ => none
  | .ok (_, rs) => some rs

/-- `_ReplayRequestImpl.download` (lines 181-199), from the raw line array
onward: process every line, keep the non-`None` results. -/
def replayDownloadFromLines (filt : List (String × List String)) (array : List TextLine) :
    Except PyErr (List MappingLine) :=
  match processAll (mkProcessor filt) array with
  | .error e => .error e
  | .ok (_, rs) => .ok (rs.filterMap id)

/-! ## `_ReplayStreamIterator` (`exdpy/replay.py`, lines 101-129) and the
raw streaming path -/

/-- Modelled from the spec: `_RawRequestImpl.stream` (`exdpy/raw.py`,
lines 182-183) has an empty body (`pass`) in the source, so the raw
streaming pipeline (Streaming Buffer, §4.4) is missing from it.  §4.4/§8
require the streamed sequence to be ordered and contentwise identical to
the materialized `download` path for the same request, so the raw stream
is modelled as yielding exactly the `download` sequence. -/
def rawStreamLines (mapped : List (String × List (List TextLine))) (fuel : Nat) :
    DownloadResult :=
  rawDownload mapped fuel

/-- One call of `_ReplayStreamIterator.__next__` (lines 120-129), reading
from the (buffered) raw line sequence: `while True:` pull a raw line
(`StopIteration` of the raw iterator ends the sequence), process it, and
on a `None` result `continue`.  When the result is *not* `None` the `if`
falls through and - the body containing no further statement - the loop
also just continues: no line is ever returned.  The call's outcome is
`none` for `StopIteration`, or a yielded line with the processor state and
the unconsumed raw rest (which, with this body, never happens). -/
def replayNextR (s : ProcState) : List TextLine →
    Except PyErr (Option (MappingLine × ProcState × List TextLine))
  | [] => .ok none
  | l :: rest =>
    match processRawLine s l with
    | .error e => .error e
    | .ok (s', r) =>
      match r with
      | none => replayNextR s' rest
      | some _ => replayNextR s' rest

/-- Fully drain a `_ReplayStreamIterator`: repeat `__next__` until
`StopIteration`, collecting every yielded line. -/
def replayDrainAux : Nat → ProcState → List TextLine → List MappingLine → DownloadResult
  | 0, _, _, _ => .outOfFuel
  | fuel + 1, s, lines, acc =>
    match replayNextR s lines with
    | .error e => .err e
    | .ok none => .ok acc.reverse
    | .ok (some (m, s', rest)) => replayDrainAux fuel s' rest (m :: acc)

/-- Drain the replay stream built for `filt` over the raw line sequence
`lines`. -/
def replayStreamDrain (filt : List (String × List String)) (lines : List TextLine) :
    DownloadResult :=
  replayDrainAux (lines.length + 1) (mkProcessor filt) lines []

/-- `_ReplayRequestImpl.download`: materialize the raw request, then
process every line (lines 181-199). -/
def replayDownload (filt : List (String × List String))
    (mapped : List (String × List (List TextLine))) (fuel : Nat) : DownloadResult :=
  match rawDownload mapped fuel with
  | .ok array =>
    match replayDownloadFromLines filt array with
    | .error e => .err e
    | .ok ls => .ok ls
  | .err e => .err e
  | .outOfFuel => .outOfFuel

/-- Fully drain `_ReplayRequestImpl.stream`: the raw stream (see
`rawStreamLines`) consumed through `_ReplayStreamIterator`. -/
def replayStream (filt : List (String × List String))
    (mapped : List (String × List (List TextLine))) (fuel : Nat) : DownloadResult :=
  match rawStreamLines mapped fuel with
  | .ok lines => replayStreamDrain filt lines
  | .err e => .err e
  | .outOfFuel => .outOfFuel

/-! ## `_filter` (`exdpy/http.py`, lines 79-165) -/

/-- Python `l.split(sep, maxsplit)` on the character list: split at the
first `maxsplit` separators, the remainder staying whole; always at least
one part. -/
def pySplitList (sep : Char) : Nat → List Char → List (List Char)
  | _, [] => [[]]
  | 0, cs => [cs]
  | n + 1, c :: cs =>
    if c = sep then
      [] :: pySplitList sep n cs
    else
      match pySplitList sep (n + 1) cs with
      | [] => [[c]]
      | p :: ps => (c :: p) :: ps

/-- `l.split(sep, maxsplit)` on strings. -/
def pySplit (s : String) (sep : Char) (maxsplit : Nat) : List String :=
  (pySplitList sep maxsplit s.data).map (fun cs => ⟨cs⟩)

/-- Python `content.splitlines(False)`: split at line breaks (`\n`, `\r`,
`\r\n`), no terminator kept, no trailing empty line. -/
def pySplitlinesAux : List Char → List Char → List String
  | [], cur => if cur.isEmpty then [] else [⟨cur.reverse⟩]
  | '\r' :: '\n' :: rest, cur => (⟨cur.reverse⟩ : String) :: pySplitlinesAux rest []
  | '\n' :: rest, cur => (⟨cur.reverse⟩ : String) :: pySplitlinesAux rest []
  | '\r' :: rest, cur => (⟨cur.reverse⟩ : String) :: pySplitlinesAux rest []
  | c :: rest, cur => pySplitlinesAux rest (c :: cur)

def pySplitlines (s : String) : List String :=
  pySplitlinesAux s.data []

/-- `l[:l.find('\t')]` (http.py line 124): the prefix before the first
tab; `str.find` returns `-1` when there is no tab, and `l[:-1]` is the
string without its last character. -/
def lineKindToken (l : String) : String :=
  if '\t' ∈ l.data then ⟨l.data.takeWhile (fun c => c != '\t')⟩ else ⟨l.data.dropLast⟩

/-- The `LineTypeValueOf` table of `exdpy/common.py` (lines 45-51). -/
def lineTypeValueOf (s : String) : Option LineType :=
  if s = "msg" then some .message
  else if s = "send" then some .send
  else if s = "start" then some .start
  else if s = "end" then some .end_
  else if s = "err" then some .error
  else none

/-- Python list indexing `xs[i]`: `IndexError` out of range (the indices
used are non-negative). -/
def pyIdx {α : Type} (xs : List α) (i : Nat) : Except PyErr α :=
  match xs.get? i with
  | some x => .ok x
  | none => .error .indexError

/-- Dict access `LineTypeValueOf[s]`: `KeyError` when absent. -/
def lineTypeAt (s : String) : Except PyErr LineType :=
  match lineTypeValueOf s with
  | some t => .ok t
  | none => .error (.keyError s)

/-- Python `int(s)` on a string: decimal parse, `ValueError` on failure. -/
def pyIntStr (s : String) : Except PyErr Int :=
  match pyParseDecimal s with
  | some n => .ok n
  | none => .error .valueError

/-- The per-line conversion of `_filter` (http.py lines 122-163):
determine the kind token, reject unknown kinds (`RuntimeError`), then
build the `TextLine` for the kind's branch.  Constructor arguments are
evaluated left to right, exactly as Python does
(`LineTypeValueOf[split[0]]`, then `int(split[1])`, then the channel /
message fields). -/
def pyFilterParseLine (exchange : String) (l : String) : Except PyErr TextLine :=
  let token := lineKindToken l
  match lineTypeValueOf token with
  | none => .error .runtimeError
  | some lineType =>
    if lineType = .message ∨ lineType = .send then
      let split := pySplit l '\t' 4
      match pyIdx split 0 with
      | .error e => .error e
      | .ok s0 =>
        match lineTypeAt s0 with
        | .error e => .error e
        | .ok t0 =>
          match pyIdx split 1 with
          | .error e => .error e
          | .ok s1 =>
            match pyIntStr s1 with
            | .error e => .error e
            | .ok ts =>
              match pyIdx split 2 with
              | .error e => .error e
              | .ok s2 =>
                match pyIdx split 3 with
                | .error e => .error e
                | .ok s3 => .ok ⟨exchange, t0, ts, some s2, some (.str s3)⟩
    else if lineType = .start ∨ lineType = .end_ then
      let split := pySplit l '\t' 3
      match pyIdx split 0 with
      | .error e => .error e
      | .ok s0 =>
        match lineTypeAt s0 with
        | .error e => .error e
        | .ok t0 =>
          match pyIdx split 1 with
          | .error e => .error e
          | .ok s1 =>
            match pyIntStr s1 with
            | .error e => .error e
            | .ok ts =>
              match pyIdx split 2 with
              | .error e => .error e
              | .ok s2 => .ok ⟨exchange, t0, ts, some s2, none⟩
    else
      let split := pySplit l '\t' 2
      match pyIdx split 0 with
      | .error e => .error e
      | .ok s0 =>
        match lineTypeAt s0 with
        | .error e => .error e
        | .ok t0 =>
          match pyIdx split 1 with
          | .error e => .error e
          | .ok s1 =>
            match pyIntStr s1 with
            | .error e => .error e
            | .ok ts => .ok ⟨exchange, t0, ts, none, none⟩

/-- Effectful `map` over `Except` (the conversion loop builds the result
list and any exception aborts the whole call). -/
def exMapM {α β : Type} (f : α → Except PyErr β) : List α → Except PyErr (List β)
  | [] => .ok []
  | a :: rest =>
    match f a with
    | .error e => .error e
    | .ok b =>
      match exMapM f rest with
      | .error e => .error e
      | .ok bs => .ok (b :: bs)

/-- The body of `_filter` from the transport response onward (http.py
lines 110-165): a `404` status yields an empty shard; otherwise the
decompressed text content is split into lines and each line converted. -/
def pyFilterFromResponse (exchange : String) (statusCode : Nat) (content : String) :
    Except PyErr (List TextLine) :=
  if statusCode = 404 then
    .ok []
  else
    exMapM (pyFilterParseLine exchange) (pySplitlines content)

/-! ## Concrete scenario inputs -/

/-- A plain `MESSAGE` line used by the merge scenarios. -/
def mkMsgLine (e : String) (ts : Int) : TextLine :=
  ⟨e, .message, ts, some "c", some (.str "m")⟩

/-- §8 merge scenario: exchange `"a"` with lines at timestamps 10, 30. -/
def mappedTwoExchanges : List (String × List (List TextLine)) :=
  [("a", [[mkMsgLine "a" 10, mkMsgLine "a" 30]]),
   ("b", [[mkMsgLine "b" 20, mkMsgLine "b" 25]])]

/-- The `START` line of the §8 bitmex scenario (the `_filter` parser puts
the third wire field in `channel` and leaves `message` empty for `START`,
see `pyFilterParseLine`; the decoder only looks at its `type`). -/
def startLine : TextLine := ⟨"bitmex", .start, 1, some "u", none⟩

/-- The schema `MESSAGE` of the bitmex scenario: channel `orderBookL2`,
payload defining field `timestamp` with type tag `timestamp`. -/
def schemaLine : TextLine :=
  ⟨"bitmex", .message, 2, some "orderBookL2", some (.obj [("timestamp", .str "timestamp")])⟩

/-- The data `MESSAGE` of the bitmex scenario: field `timestamp` is the
decimal string `"1577836800000000000"`, field `pair` is `"XBTUSD"`. -/
def dataLine : TextLine :=
  ⟨"bitmex", .message, 3, some "orderBookL2",
    some (.obj [("timestamp", .str "1577836800000000000"), ("pair", .str "XBTUSD")])⟩

/-- The mapping line the decoder produces for `dataLine` once the schema
from `schemaLine` is stored: channel renamed to `orderBookL2_XBTUSD`,
`timestamp` coerced to an integer. -/
def decodedLine : MappingLine :=
  ⟨"bitmex", .message, 3, some "orderBookL2_XBTUSD",
    some (.obj [("timestamp", .int 1577836800000000000), ("pair", .str "XBTUSD")])⟩

/-- The instrument-level replay filter of the bitmex scenario. -/
def replayFilt : List (String × List String) := [("bitmex", ["orderBookL2_XBTUSD"])]

/-- The fetched shard map of the bitmex scenario (one exchange, one shard
holding the three raw lines). -/
def mappedBitmex : List (String × List (List TextLine)) :=
  [("bitmex", [[startLine, schemaLine, dataLine]])]

/-! ## Claims about the raw merge (C2, C3, C4, C8) -/

/-- **C4**: the claim states that pulling from the per-exchange shard line
iterator yields exactly the concatenation of the shards' contents in shard
order, advancing from shard to shard, and then signals end-of-sequence
(`StopIteration`), never failing on an exhausted or empty shard.  The code
instead compares `len(shard) < position` (never true, since `position`
never exceeds the shard length), so the cursor never advances past the
first shard: with shards `[[line 10], [line 20]]` it yields only the first
shard's line and then raises `IndexError`, and on a single empty shard it
raises `IndexError` immediately. -/
theorem shards_iterator_indexerror_on_exhausted_shard :
    shardsDrain 10 [[mkMsgLine "a" 10], [mkMsgLine "a" 20]] = ([mkMsgLine "a" 10], .idxErr)
    ∧ shardsDrain 10 [([] : List TextLine)] = ([], .idxErr)
    ∧ ([mkMsgLine "a" 10], DrainEnd.idxErr)
        ≠ ([mkMsgLine "a" 10, mkMsgLine "a" 20], DrainEnd.stop) :=
  ⟨rfl, rfl, by simp⟩

/-- **C2**: the claim states that a raw download over exchanges `"a"`
(timestamps 10, 30) and `"b"` (timestamps 20, 25) merges to
`10(a), 20(b), 25(b), 30(a)`.  The code's inner scan
`range(len(exchanges) - 2, 0, -1)` never visits index 0, so exchange `"a"`
is ignored while `"b"` is drained first, and when `"a"` is later
exhausted, `exchanges.remove(exchange)` uses the leaked loop variable
(still `"b"`, already removed) and raises `ValueError`: `download()`
raises instead of returning the merged list. -/
theorem rawdownload_two_exchange_merge_valueerror :
    rawDownload mappedTwoExchanges 100 = .err .valueError
    ∧ rawDownload mappedTwoExchanges 100
        ≠ .ok [mkMsgLine "a" 10, mkMsgLine "b" 20, mkMsgLine "b" 25, mkMsgLine "a" 30] :=
  ⟨rfl, fun h =>
    nomatch (show DownloadResult.err .valueError
      = .ok [mkMsgLine "a" 10, mkMsgLine "b" 20, mkMsgLine "b" 25, mkMsgLine "a" 30] from h)⟩

/-- **C3**: the claim states that every input line appears exactly once in
the output of `download()` (with non-decreasing timestamps).  For a single
exchange with two one-line shards `[[line 10], [line 20]]` - individually
time-ordered and end-to-end non-decreasing - the download succeeds but
returns only the first shard's line: the iterator's broken advance (see
C4) raises `IndexError` at the first shard's end, the merge loop's bare
`except:` treats that as exhaustion, and every later shard is silently
dropped. -/
theorem rawdownload_drops_later_shards :
    rawDownload [("a", [[mkMsgLine "a" 10], [mkMsgLine "a" 20]])] 100 = .ok [mkMsgLine "a" 10]
    ∧ mkMsgLine "a" 20 ∈ [[mkMsgLine "a" 10], [mkMsgLine "a" 20]].flatten
    ∧ mkMsgLine "a" 20 ∉ [mkMsgLine "a" 10] :=
  ⟨rfl, by simp, by simp [mkMsgLine]⟩

/-- **C8**: the claim states that when every fetch task gets a 404/no-data
response (so every shard is empty), each fetch returns an empty shard
(true: `_filter` maps 404 to `[]`) and `download()` returns an empty
sequence rather than an error.  Instead, `next()` on the empty first shard
raises `IndexError` (see C4), and the state-building loop catches only
`StopIteration`, so `download()` raises `IndexError`. -/
theorem empty_range_download_raises_indexerror :
    (∀ (e content : String), pyFilterFromResponse e 404 content = .ok [])
    ∧ rawDownload [("e", [[], []])] 100 = .err .indexError
    ∧ rawDownload [("e", [[], []])] 100 ≠ .ok [] :=
  ⟨fun _ _ => rfl, rfl,
    fun h => nomatch (show DownloadResult.err .indexError = .ok [] from h)⟩

/-! ## Claims about the replay decoder scenarios (C1, C7) -/

/-- **C1**: the claim states that fully draining `stream()` yields exactly
the records of `download()` for both the raw and the replay requests.  The
raw `stream` body is missing from the source (see `rawStreamLines`, which
models it from the spec as equal to the download sequence), but
`_ReplayStreamIterator.__next__` is present and never returns the
processed line (its `while True:` body only `continue`s), so fully
draining the replay stream yields the empty sequence while the replay
`download()` of the same request returns the decoded records. -/
theorem replay_stream_vs_download_inequivalent :
    replayDownload replayFilt mappedBitmex 100 = .ok [startLine, decodedLine]
    ∧ replayStream replayFilt mappedBitmex 100 = .ok []
    ∧ DownloadResult.ok [] ≠ .ok [startLine, decodedLine] :=
  ⟨rfl, rfl, by simp⟩

/-- **C7** counterexample: the claim states that a decoder constructed for
filter `{"bitmex": ["orderBookL2"]}` emits exactly one `MappingLine` for
the scenario's two `MESSAGE` lines.  In the code the post filter is the
*replay* filter, tested against the *normalized* channel name
`orderBookL2_XBTUSD`; with `["orderBookL2"]` the membership test fails and
the data line is dropped, so the two `MESSAGE` lines produce no emission
at all (only the `START` pass-through is returned). -/
theorem replay_scenario_raw_filter_yields_nothing :
    processedOutputs [("bitmex", ["orderBookL2"])] [startLine, schemaLine, dataLine]
      = some [some startLine, none, none]
    ∧ ([some startLine, none, none] : List (Option MappingLine)).drop 1 = [none, none]
    ∧ ([none, none] : List (Option MappingLine)).filterMap id = [] :=
  ⟨rfl, rfl, rfl⟩

/-- **C7** as amended: with the decoder constructed for the
instrument-level filter `{"bitmex": ["orderBookL2_XBTUSD"]}` (the filter a
replay request for this scenario actually passes to its processor, cf.
`tests/test_replay.py`), the two `MESSAGE` lines produce exactly one
`MappingLine`: channel renamed to `orderBookL2_XBTUSD`, `timestamp` field
coerced to the integer 1577836800000000000. -/
theorem replay_scenario_instrument_filter_one_line :
    processedOutputs replayFilt [startLine, schemaLine, dataLine]
      = some [some startLine, none,
          some ⟨"bitmex", .message, 3, some "orderBookL2_XBTUSD",
            some (.obj [("timestamp", .int 1577836800000000000), ("pair", .str "XBTUSD")])⟩] :=
  rfl

/-! ## Claims about the replay decoder state machine (C5, C6, C10) -/

/-- **C5**: the first `MESSAGE` observed on `(exchange, channel)` after
decoder initialization or after any `START` for that exchange is consumed
without being emitted (`process_raw_line` returns `None`) and its payload
is stored as the schema for that pair; a `START` line for an exchange
clears all previously stored schemas for it, so the next `MESSAGE` per
channel is again schema-only.  Both parts hold of the code. -/
theorem replay_schema_gating_and_reset :
    (∀ (s : ProcState) (l : TextLine) (m : Jv),
        l.type = .message → l.message = some m →
        schemaLookup s.defs l.exchange l.channel = none →
        ∃ s', processRawLine s l = .ok (s', none)
          ∧ schemaLookup s'.defs l.exchange l.channel = some m
          ∧ s'.postFilter = s.postFilter)
    ∧ (∀ (s : ProcState) (l : TextLine),
        l.type = .start →
        ∃ s', processRawLine s l = .ok (s', some l)
          ∧ (∀ c, schemaLookup s'.defs l.exchange c = none)
          ∧ s'.postFilter = s.postFilter) := by
  constructor
  · intro s l m htype hmsg hnone
    unfold processRawLine
    rw [htype]
    simp only [reduceCtorEq, if_false, if_true]
    cases hE : alookup l.exchange s.defs with
    | none =>
      refine ⟨⟨aset l.exchange (aset l.channel m []) (aset l.exchange [] s.defs), s.postFilter⟩,
        ?_, ?_, rfl⟩
      · simp only [hE, alookup_aset_self, Option.getD_some]
        rw [show alookup l.channel ([] : List (Option String × Jv)) = none from rfl, hmsg]
      · unfold schemaLookup
        simp only [alookup_aset_self, Option.getD_some]
    | some dE =>
      unfold schemaLookup at hnone
      rw [hE] at hnone
      simp only [Option.getD_some] at hnone
      refine ⟨⟨aset l.exchange (aset l.channel m dE) s.defs, s.postFilter⟩, ?_, ?_, rfl⟩
      · simp only [hE, Option.getD_some]
        rw [hnone, hmsg]
      · unfold schemaLookup
        simp only [alookup_aset_self, Option.getD_some]
  · intro s l hst
    refine ⟨⟨aset l.exchange [] s.defs, s.postFilter⟩, ?_, ?_, rfl⟩
    · unfold processRawLine
      rw [hst]
      simp only [reduceCtorEq, if_false, if_true]
    · intro c
      unfold schemaLookup
      simp only [alookup_aset_self, Option.getD_some]
      rfl

/-- Witness for C5: the bitmex scenario's schema line is consumed
schema-only by a fresh decoder, and a `START` line resets bitmex. -/
theorem replay_schema_gating_and_reset_witness :
    schemaLine.type = LineType.message
    ∧ schemaLine.message = some (Jv.obj [("timestamp", Jv.str "timestamp")])
    ∧ schemaLookup (mkProcessor replayFilt).defs schemaLine.exchange schemaLine.channel = none
    ∧ (∃ s', processRawLine (mkProcessor replayFilt) schemaLine = .ok (s', none)
        ∧ schemaLookup s'.defs schemaLine.exchange schemaLine.channel
            = some (Jv.obj [("timestamp", Jv.str "timestamp")])
        ∧ s'.postFilter = (mkProcessor replayFilt).postFilter)
    ∧ (∃ s', processRawLine (mkProcessor replayFilt) startLine = .ok (s', some startLine)
        ∧ (∀ c, schemaLookup s'.defs startLine.exchange c = none)
        ∧ s'.postFilter = (mkProcessor replayFilt).postFilter) :=
  ⟨rfl, rfl, rfl,
    replay_schema_gating_and_reset.1 (mkProcessor replayFilt) schemaLine
      (Jv.obj [("timestamp", Jv.str "timestamp")]) rfl rfl rfl,
    replay_schema_gating_and_reset.2 (mkProcessor replayFilt) startLine rfl⟩

/-- **C6** counterexample: the claim states that *every* line emitted by
`process_raw_line` - lines of any kind - has its (exchange, channel) pair
in the requested filter.  Non-`MESSAGE` lines are passed through by the
`cast` at replay.py line 53 with no filter test at all: a `SEND` line on
channel `"z"` is emitted although the filter for `"e"` is `["a"]`. -/
theorem replay_passthrough_escapes_filter :
    processRawLine (mkProcessor [("e", ["a"])]) ⟨"e", .send, 5, some "z", some (.str "x")⟩
      = .ok (mkProcessor [("e", ["a"])], some ⟨"e", .send, 5, some "z", some (.str "x")⟩)
    ∧ alookup "e" (mkProcessor [("e", ["a"])]).postFilter = some ["a"]
    ∧ "z" ∉ ["a"] :=
  ⟨rfl, rfl, by simp⟩

/-- **C6** as amended: restricted to `MESSAGE` lines (the only kind the
decoder filters, §4.5), every emitted `MappingLine` carries a normalized
channel that is a member of the requested filter entry for its exchange;
the post filter itself is never modified. -/
theorem replay_message_emission_in_filter :
    ∀ (s : ProcState) (l : TextLine) (s' : ProcState) (r : Option MappingLine),
      processRawLine s l = .ok (s', r) →
      s'.postFilter = s.postFilter
      ∧ (∀ ol, r = some ol → l.type = .message →
          ∃ c chs, ol.channel = some c ∧ alookup l.exchange s.postFilter = some chs ∧ c ∈ chs) := by
  intro s l s' r h
  unfold processRawLine at h
  by_cases htype : l.type = LineType.message
  · rw [htype] at h
    simp only [reduceCtorEq, if_false, if_true] at h
    cases hE : alookup l.exchange s.defs <;> simp only [hE] at h <;>
      simp only [alookup_aset_self, Option.getD_some] at h
    next =>
      rw [show alookup l.channel ([] : List (Option String × Jv)) = none from rfl] at h
      cases hM : l.message <;> simp only [hM] at h
      next => exact absurd h (by simp)
      next m =>
        simp only [Except.ok.injEq, Prod.mk.injEq] at h
        obtain ⟨hs, hr⟩ := h
        subst hs
        refine ⟨rfl, ?_⟩
        intro ol hol
        rw [← hr] at hol
        exact absurd hol (by simp)
    next dE =>
      cases hC : alookup l.channel dE <;> simp only [hC] at h
      next =>
        cases hM : l.message <;> simp only [hM] at h
        next => exact absurd h (by simp)
        next m =>
          simp only [Except.ok.injEq, Prod.mk.injEq] at h
          obtain ⟨hs, hr⟩ := h
          subst hs
          refine ⟨rfl, ?_⟩
          intro ol hol
          rw [← hr] at hol
          exact absurd hol (by simp)
      next defn =>
        cases hM : l.message <;> simp only [hM] at h
        next => exact absurd h (by simp)
        next msgObj =>
          cases hN : pyNormalizeChannel l.exchange l.channel msgObj <;> simp only [hN] at h
          next e => exact absurd h (by simp)
          next newChannel =>
            cases hF : alookup l.exchange s.postFilter <;> simp only [hF] at h
            next => exact absurd h (by simp)
            next chs =>
              by_cases hMem : optMem newChannel chs
              · rw [if_pos hMem] at h
                cases hCo : pyCoerceFields defn msgObj <;> simp only [hCo] at h
                next e => exact absurd h (by simp)
                next m2 =>
                  simp only [Except.ok.injEq, Prod.mk.injEq] at h
                  obtain ⟨hs, hr⟩ := h
                  subst hs
                  refine ⟨rfl, ?_⟩
                  intro ol hol _
                  rw [← hr] at hol
                  cases hol
                  cases newChannel with
                  | none => exact absurd hMem (by simp [optMem])
                  | some c =>
                    refine ⟨c, chs, rfl, rfl, ?_⟩
                    have hcon : chs.contains c = true := by simpa [optMem] using hMem
                    simpa using hcon
              · rw [if_neg hMem] at h
                simp only [Except.ok.injEq, Prod.mk.injEq] at h
                obtain ⟨hs, hr⟩ := h
                subst hs
                refine ⟨rfl, ?_⟩
                intro ol hol
                rw [← hr] at hol
                exact absurd hol (by simp)
  · rw [if_neg htype] at h
    simp only [Except.ok.injEq, Prod.mk.injEq] at h
    obtain ⟨hs, hr⟩ := h
    subst hs
    exact ⟨rfl, fun ol hol ht => absurd ht htype⟩

/-- The bitmex scenario's schema payload. -/
def schemaPayload : Jv := .obj [("timestamp", .str "timestamp")]

/-- The bitmex scenario's data payload. -/
def dataPayload : Jv := .obj [("timestamp", .str "1577836800000000000"), ("pair", .str "XBTUSD")]

/-- A decoder state that has already learned `schemaPayload` for the raw
channel `orderBookL2` of bitmex. -/
def procWithSchema : ProcState :=
  ⟨[("bitmex", [(some "orderBookL2", schemaPayload)])], replayFilt⟩

/-- Witness for C6: the decoded bitmex data line is emitted on channel
`orderBookL2_XBTUSD`, which is a member of the requested filter. -/
theorem replay_message_emission_in_filter_witness :
    processRawLine procWithSchema dataLine = .ok (procWithSchema, some decodedLine)
    ∧ dataLine.type = LineType.message
    ∧ (procWithSchema.postFilter = procWithSchema.postFilter
       ∧ ∃ c chs, decodedLine.channel = some c
           ∧ alookup dataLine.exchange procWithSchema.postFilter = some chs ∧ c ∈ chs) :=
  ⟨rfl, rfl, by
    have h := replay_message_emission_in_filter procWithSchema dataLine procWithSchema
      (some decodedLine) rfl
    exact ⟨h.1, h.2 decodedLine rfl rfl⟩⟩

/-- **C10**: the schema table is keyed by the raw (pre-normalization)
channel name: a `MESSAGE` line with no stored schema for
`(exchange, raw channel)` stores its payload under exactly that raw key
(and is consumed); a `MESSAGE` line with a stored schema leaves the table
unchanged and, when it is emitted, its payload was coerced with the
definition found under the raw channel while the emitted channel is the
normalized name.  Normalization therefore never affects which schema
entry is read or written. -/
theorem replay_schema_raw_channel_keying :
    ∀ (s : ProcState) (l : TextLine) (c : String) (m : Jv) (s' : ProcState)
      (r : Option MappingLine),
      l.type = .message → l.channel = some c → l.message = some m →
      processRawLine s l = .ok (s', r) →
      (schemaLookup s.defs l.exchange (some c) = none →
        r = none ∧ schemaLookup s'.defs l.exchange (some c) = some m)
      ∧ (∀ defn, schemaLookup s.defs l.exchange (some c) = some defn →
        s'.defs = s.defs
        ∧ (∀ ol, r = some ol →
            ∃ nc m2, pyNormalizeChannel l.exchange (some c) m = .ok nc
              ∧ pyCoerceFields defn m = .ok m2
              ∧ ol.channel = nc ∧ ol.message = some m2)) := by
  intro s l c m s' r htype hch hmsg h
  unfold processRawLine at h
  rw [htype, hch, hmsg] at h
  simp only [reduceCtorEq, if_false, if_true] at h
  unfold schemaLookup
  cases hE : alookup l.exchange s.defs <;> simp only [hE] at h <;>
    simp only [hE, alookup_aset_self, Option.getD_some, Option.getD_none] at h ⊢
  next =>
    rw [show alookup (some c) ([] : List (Option String × Jv)) = none from rfl] at h
    simp only [Except.ok.injEq, Prod.mk.injEq] at h
    obtain ⟨hs, hr⟩ := h
    subst hs
    constructor
    · intro _
      exact ⟨hr.symm, by simp only [alookup_aset_self, Option.getD_some, alookup_aset_self]⟩
    · intro defn hdefn
      exact absurd hdefn (by simp [alookup])
  next dE =>
    cases hC : alookup (some c) dE <;> simp only [hC] at h
    next =>
      simp only [Except.ok.injEq, Prod.mk.injEq] at h
      obtain ⟨hs, hr⟩ := h
      subst hs
      constructor
      · intro _
        exact ⟨hr.symm, by simp only [alookup_aset_self, Option.getD_some, alookup_aset_self]⟩
      · intro defn hdefn
        exact absurd hdefn (by simp)
    next defn0 =>
      constructor
      · intro hnone
        exact absurd hnone (by simp)
      · intro defn hdefn
        injection hdefn with heq
        subst heq
        cases hN : pyNormalizeChannel l.exchange (some c) m <;> simp only [hN] at h
        next e => exact absurd h (by simp)
        next newChannel =>
          cases hF : alookup l.exchange s.postFilter <;> simp only [hF] at h
          next => exact absurd h (by simp)
          next chs =>
            by_cases hMem : optMem newChannel chs
            · rw [if_pos hMem] at h
              cases hCo : pyCoerceFields defn0 m <;> simp only [hCo] at h
              next e => exact absurd h (by simp)
              next m2 =>
                simp only [Except.ok.injEq, Prod.mk.injEq] at h
                obtain ⟨hs, hr⟩ := h
                subst hs
                refine ⟨rfl, ?_⟩
                intro ol hol
                rw [← hr] at hol
                cases hol
                exact ⟨newChannel, m2, rfl, rfl, rfl, rfl⟩
            · rw [if_neg hMem] at h
              simp only [Except.ok.injEq, Prod.mk.injEq] at h
              obtain ⟨hs, hr⟩ := h
              subst hs
              refine ⟨rfl, ?_⟩
              intro ol hol
              rw [← hr] at hol
              exact absurd hol (by simp)

/-- Witness for C10: two instrument-specific bitmex lines multiplexed over
the raw channel `orderBookL2` are both coerced through the single stored
schema under that raw key, and the table is left unchanged. -/
theorem replay_schema_raw_channel_keying_witness :
    dataLine.type = LineType.message
    ∧ dataLine.channel = some "orderBookL2"
    ∧ dataLine.message = some dataPayload
    ∧ processRawLine procWithSchema dataLine = .ok (procWithSchema, some decodedLine)
    ∧ schemaLookup procWithSchema.defs dataLine.exchange (some "orderBookL2") = some schemaPayload
    ∧ (procWithSchema.defs = procWithSchema.defs
       ∧ ∃ nc m2, pyNormalizeChannel dataLine.exchange (some "orderBookL2") dataPayload = .ok nc
           ∧ pyCoerceFields schemaPayload dataPayload = .ok m2
           ∧ decodedLine.channel = nc ∧ decodedLine.message = some m2) :=
  ⟨rfl, rfl, rfl, rfl, rfl, by
    have h := replay_schema_raw_channel_keying procWithSchema dataLine "orderBookL2"
      dataPayload procWithSchema (some decodedLine) rfl rfl rfl rfl
    have h2 := h.2 schemaPayload rfl
    exact ⟨h2.1, h2.2 decodedLine rfl⟩⟩

/-! ## Claim about the `_filter` line parser (C9) -/

theorem pySplitList_ne_nil (sep : Char) (n : Nat) (cs : List Char) :
    pySplitList sep n cs ≠ [] := by
  match n, cs with
  | _, [] => simp [pySplitList]
  | 0, c :: cs => simp [pySplitList]
  | n + 1, c :: cs =>
    unfold pySplitList
    split
    · simp
    · split <;> simp

theorem pySplitList_head (sep : Char) (n : Nat) (cs : List Char) :
    (pySplitList sep (n + 1) cs).head? = some (cs.takeWhile (fun c => c != sep)) := by
  induction cs generalizing n with
  | nil => simp [pySplitList]
  | cons c cs ih =>
    unfold pySplitList
    by_cases hc : c = sep
    · simp [hc]
    · rw [if_neg hc]
      cases hrec : pySplitList sep (n + 1) cs with
      | nil => exact absurd hrec (pySplitList_ne_nil _ _ _)
      | cons p ps =>
        have hh := ih n
        rw [hrec] at hh
        simp only [List.head?] at hh
        injection hh with hp
        have hbne : (c != sep) = true := by simp [hc]
        simp [List.takeWhile, hbne, ← hp]

theorem pySplitList_no_sep (sep : Char) (cs : List Char) (h : sep ∉ cs) (n : Nat) :
    pySplitList sep n cs = [cs] := by
  induction cs generalizing n with
  | nil => cases n <;> simp [pySplitList]
  | cons c cs ih =>
    cases n with
    | zero => simp [pySplitList]
    | succ n =>
      unfold pySplitList
      have hc : ¬ c = sep := fun e => h (by simp [e])
      rw [if_neg hc]
      have hcs : sep ∉ cs := fun e => h (by simp [e])
      rw [ih hcs (n + 1)]

/-- A successful read of `split[1]` means the line contained a tab. -/
theorem pyIdx1_tab_mem (l : String) (k : Nat) (s1 : String)
    (h : pyIdx (pySplit l '\t' k) 1 = .ok s1) : '\t' ∈ l.data := by
  by_contra hmem
  have heq := pySplitList_no_sep '\t' l.data hmem k
  unfold pySplit pyIdx at h
  rw [heq] at h
  simp at h

/-- When the line contains a tab, `split[0]` is exactly the kind token
`l[:l.find('\t')]`. -/
theorem pyIdx0_token (l : String) (n : Nat) (hmem : '\t' ∈ l.data) :
    pyIdx (pySplit l '\t' (n + 1)) 0 = .ok (lineKindToken l) := by
  unfold pySplit pyIdx lineKindToken
  rw [if_pos hmem]
  have hh := pySplitList_head '\t' n l.data
  cases heq : pySplitList '\t' (n + 1) l.data with
  | nil => exact absurd heq (pySplitList_ne_nil _ _ _)
  | cons p ps =>
    rw [heq] at hh
    simp only [List.head?] at hh
    injection hh with hp
    simp [hp]

/-- The second lookup `LineTypeValueOf[split[0]]` agrees with the branch
kind computed from the token whenever `split[1]` was also read
successfully (so the line contains a tab and `split[0]` *is* the
token). -/
theorem token_type_agree (l : String) (n : Nat) (t t0 : LineType) (s0 s1 : String)
    (htok : lineTypeValueOf (lineKindToken l) = some t)
    (h0 : pyIdx (pySplit l '\t' (n + 1)) 0 = .ok s0)
    (hT : lineTypeAt s0 = .ok t0)
    (h1 : pyIdx (pySplit l '\t' (n + 1)) 1 = .ok s1) :
    t0 = t := by
  have hmem := pyIdx1_tab_mem l (n + 1) s1 h1
  have h0' := pyIdx0_token l n hmem
  rw [h0'] at h0
  injection h0 with hs0
  unfold lineTypeAt at hT
  rw [← hs0, htok] at hT
  injection hT with ht
  exact ht.symm

/-- Every successfully parsed filter line has `channel` present except in
the `ERROR` branch, and `message` present exactly in the `MESSAGE`/`SEND`
branch. -/
theorem pyFilterParseLine_ok_shape (exchange l : String) (line : TextLine)
    (h : pyFilterParseLine exchange l = .ok line) :
    (line.channel ≠ none ↔ line.type ≠ .error)
    ∧ (line.message ≠ none ↔ (line.type = .message ∨ line.type = .send)) := by
  unfold pyFilterParseLine at h
  cases htok : lineTypeValueOf (lineKindToken l) <;> simp only [htok] at h
  next => exact absurd h (by simp)
  next t =>
  by_cases hb1 : t = LineType.message ∨ t = LineType.send
  · rw [if_pos hb1] at h
    cases h0 : pyIdx (pySplit l '\t' 4) 0 <;> simp only [h0] at h
    next => exact absurd h (by simp)
    next s0 =>
    cases hT : lineTypeAt s0 <;> simp only [hT] at h
    next => exact absurd h (by simp)
    next t0 =>
    cases h1 : pyIdx (pySplit l '\t' 4) 1 <;> simp only [h1] at h
    next => exact absurd h (by simp)
    next s1 =>
    cases hI : pyIntStr s1 <;> simp only [hI] at h
    next => exact absurd h (by simp)
    next ts =>
    cases h2 : pyIdx (pySplit l '\t' 4) 2 <;> simp only [h2] at h
    next => exact absurd h (by simp)
    next s2 =>
    cases h3 : pyIdx (pySplit l '\t' 4) 3 <;> simp only [h3] at h
    next => exact absurd h (by simp)
    next s3 =>
    have ht0 : t0 = t := token_type_agree l 3 t t0 s0 s1 htok h0 hT h1
    injection h with hline
    subst hline
    subst ht0
    rcases hb1 with hb | hb <;> subst hb <;> simp
  · rw [if_neg hb1] at h
    by_cases hb2 : t = LineType.start ∨ t = LineType.end_
    · rw [if_pos hb2] at h
      cases h0 : pyIdx (pySplit l '\t' 3) 0 <;> simp only [h0] at h
      next => exact absurd h (by simp)
      next s0 =>
      cases hT : lineTypeAt s0 <;> simp only [hT] at h
      next => exact absurd h (by simp)
      next t0 =>
      cases h1 : pyIdx (pySplit l '\t' 3) 1 <;> simp only [h1] at h
      next => exact absurd h (by simp)
      next s1 =>
      cases hI : pyIntStr s1 <;> simp only [hI] at h
      next => exact absurd h (by simp)
      next ts =>
      cases h2 : pyIdx (pySplit l '\t' 3) 2 <;> simp only [h2] at h
      next => exact absurd h (by simp)
      next s2 =>
      have ht0 : t0 = t := token_type_agree l 2 t t0 s0 s1 htok h0 hT h1
      injection h with hline
      subst hline
      subst ht0
      rcases hb2 with hb | hb <;> subst hb <;> simp
    · have hterr : t = LineType.error := by
        cases t <;> simp_all
      subst hterr
      cases h0 : pyIdx (pySplit l '\t' 2) 0 <;> simp only [h0] at h
      next => exact absurd h (by simp)
      next s0 =>
      cases hT : lineTypeAt s0 <;> simp only [hT] at h
      next => exact absurd h (by simp)
      next t0 =>
      cases h1 : pyIdx (pySplit l '\t' 2) 1 <;> simp only [h1] at h
      next => exact absurd h (by simp)
      next s1 =>
      cases hI : pyIntStr s1 <;> simp only [hI] at h
      next => exact absurd h (by simp)
      next ts =>
      have ht0 : t0 = LineType.error :=
        token_type_agree l 1 LineType.error t0 s0 s1 htok h0 hT h1
      injection h with hline
      subst hline
      subst ht0
      simp

/-- Membership in a successful `exMapM` run comes from a successful call
on some input element. -/
theorem exMapM_ok_mem {α β : Type} (f : α → Except PyErr β) (xs : List α) (ys : List β)
    (y : β) (h : exMapM f xs = .ok ys) (hy : y ∈ ys) : ∃ x ∈ xs, f x = .ok y := by
  induction xs generalizing ys with
  | nil =>
    unfold exMapM at h
    injection h with h
    subst h
    simp at hy
  | cons a as ih =>
    unfold exMapM at h
    cases hfa : f a <;> simp only [hfa] at h
    next => exact absurd h (by simp)
    next b =>
    cases hrec : exMapM f as <;> simp only [hrec] at h
    next => exact absurd h (by simp)
    next bs =>
    injection h with h
    subst h
    rcases List.mem_cons.mp hy with hyb | hybs
    · exact ⟨a, by simp, hyb ▸ hfa⟩
    · obtain ⟨x, hx, hfx⟩ := ih bs hrec hybs
      exact ⟨x, by simp [hx], hfx⟩

/-- **C9** counterexample: the claim states that a parsed `START` line has
`message` present (the recording URL) and a parsed `END` line has
`channel` absent.  The parser handles `START` and `END` identically
(http.py lines 146-154): it stores the third wire field in `channel` and
always leaves `message` empty, so a `START` line comes back with no
message and an `END` line with a channel. -/
theorem filter_start_end_presence_counterexample :
    pyFilterFromResponse "e" 200 "start\t100\tu\nend\t200\tc"
      = .ok [⟨"e", .start, 100, some "u", none⟩, ⟨"e", .end_, 200, some "c", none⟩]
    ∧ (⟨"e", LineType.start, 100, some "u", none⟩ : TextLine).message = none
    ∧ (⟨"e", LineType.end_, 200, some "c", none⟩ : TextLine).channel ≠ none :=
  ⟨rfl, rfl, by simp⟩

/-- **C9** as amended: for every successfully parsed line of a filter
response, `channel` is present exactly for `MESSAGE`, `SEND`, `START` and
`END` lines (absent only for `ERROR`), and `message` is present exactly
for `MESSAGE` and `SEND` lines. -/
theorem filter_line_presence_by_kind :
    ∀ (exchange : String) (status : Nat) (content : String) (lines : List TextLine)
      (line : TextLine),
      pyFilterFromResponse exchange status content = .ok lines →
      line ∈ lines →
      (line.channel ≠ none ↔ line.type ≠ .error)
      ∧ (line.message ≠ none ↔ (line.type = .message ∨ line.type = .send)) := by
  intro e status content lines line h hmem
  unfold pyFilterFromResponse at h
  by_cases h404 : status = 404
  · rw [if_pos h404] at h
    injection h with h
    subst h
    simp at hmem
  · rw [if_neg h404] at h
    obtain ⟨x, _, hfx⟩ := exMapM_ok_mem _ _ _ _ h hmem
    exact pyFilterParseLine_ok_shape e x line hfx

/-- Witness for C9: one concrete parsed `MESSAGE` line, with channel and
message both present. -/
theorem filter_line_presence_by_kind_witness :
    pyFilterFromResponse "e" 200 "msg\t7\tch\tpay"
      = .ok [⟨"e", .message, 7, some "ch", some (.str "pay")⟩]
    ∧ (⟨"e", LineType.message, 7, some "ch", some (Jv.str "pay")⟩ : TextLine)
        ∈ [(⟨"e", LineType.message, 7, some "ch", some (Jv.str "pay")⟩ : TextLine)]
    ∧ (((⟨"e", LineType.message, 7, some "ch", some (Jv.str "pay")⟩ : TextLine).channel ≠ none
          ↔ (⟨"e", LineType.message, 7, some "ch", some (Jv.str "pay")⟩ : TextLine).type
              ≠ .error)
       ∧ ((⟨"e", LineType.message, 7, some "ch", some (Jv.str "pay")⟩ : TextLine).message ≠ none
          ↔ ((⟨"e", LineType.message, 7, some "ch", some (Jv.str "pay")⟩ : TextLine).type
              = .message
            ∨ (⟨"e", LineType.message, 7, some "ch", some (Jv.str "pay")⟩ : TextLine).type
              = .send))) :=
  ⟨rfl, by simp,
    filter_line_presence_by_kind "e" 200 "msg\t7\tch\tpay"
      [⟨"e", .message, 7, some "ch", some (.str "pay")⟩]
      ⟨"e", .message, 7, some "ch", some (.str "pay")⟩ rfl (by simp)⟩
